import Mathlib

/-!
Verification of the job-match matching core.

Shallow embedding of the matching engine of the job-match backend:
the similarity scorer `calculate_similarity`, the threshold derivation of
the match-search endpoints, the salary-band adjustment and candidate
filters of `CRUDCompany.find_matches` and the professional-side
`find_matches`, the match-proposal loop, the approval operations, and the
deletion / cascade operations.  Python floats are modelled by exact
rationals; Python `int(x)` and `round(x, 2)` are embedded explicitly.
Database tables are lists of records; the SQLAlchemy primary-key
constraint on `jobs_matches` is modelled by a key-membership check at
insert time.
-/

namespace JobMatch

/-! ## Python numeric primitives -/

/-- Executable floor of a rational (the `Int.floor` instance of `ℚ` does
not reduce inside the kernel, so we use integer division directly). -/
def ratFloor (q : ℚ) : ℤ := q.num / (q.den : ℤ)

/-- Python `int(x)` applied to a number: truncation toward zero. -/
def pyInt (q : ℚ) : ℤ := if 0 ≤ q then ratFloor q else -(ratFloor (-q))

/-- Python `round(x)` to an integer: round half to even. -/
def roundHalfEven (q : ℚ) : ℤ :=
  if q - (ratFloor q : ℚ) < 1/2 then ratFloor q
  else if 1/2 < q - (ratFloor q : ℚ) then ratFloor q + 1
  else if ratFloor q % 2 = 0 then ratFloor q else ratFloor q + 1

/-- Python `round(x, 2)`: round half to even at two decimal places. -/
def pyRound2 (q : ℚ) : ℚ := (roundHalfEven (q * 100) : ℚ) / 100

/-! ## Similarity scorer

Embeds `calculate_similarity` of `app/crud/crud_professional.py`
(lines 456-465), also imported and used by `app/crud/crud_company.py`:

    def calculate_similarity(resume_skills, ad_skills, threshold):
        intersection_size = len(resume_skills.intersection(ad_skills))
        union_size = len(resume_skills.union(ad_skills))
        if union_size == 0:
            return 0
        else:
            similarity = intersection_size / union_size
        return similarity >= threshold

On an empty union the Python function returns the integer `0`, which is
falsy; we model the returned truthiness as a `Bool`. -/

def calculate_similarity (resume_skills ad_skills : Finset ℕ) (threshold : ℚ) : Bool :=
  let intersection_size : ℕ := (resume_skills ∩ ad_skills).card
  let union_size : ℕ := (resume_skills ∪ ad_skills).card
  if union_size = 0 then false
  else decide ((intersection_size : ℚ) / (union_size : ℚ) ≥ threshold)

/-! ## Threshold derivation

`companies.py` line 327 and `professionals.py` line 298 both turn the
caller-supplied percentage into `round(threshold / 100, 2)`; the crud
functions (`crud_company.py` line 375, `crud_professional.py` line 436)
then call the scorer with `1 - threshold`. -/

/-- The value the match-search endpoints pass to the crud layer:
`round(p / 100, 2)`. -/
def matchEndpointThreshold (p : ℚ) : ℚ := pyRound2 (p / 100)

/-- The threshold value handed to `calculate_similarity` by the
match-proposal crud functions, as a function of the value they receive. -/
def scorerThreshold (t : ℚ) : ℚ := 1 - t

/-! ## Salary-band adjustment

`crud_company.py` lines 363-364 and `crud_professional.py` lines 419-420:

    salary_range_adjusted_min = int(ad.min_salary - (ad.min_salary * threshold))
    salary_range_adjusted_max = int(ad.max_salary + (ad.max_salary * threshold))
-/

def salary_range_adjusted_min (minSalary : ℤ) (t : ℚ) : ℤ :=
  pyInt ((minSalary : ℚ) - (minSalary : ℚ) * t)

def salary_range_adjusted_max (maxSalary : ℤ) (t : ℚ) : ℤ :=
  pyInt ((maxSalary : ℚ) + (maxSalary : ℚ) * t)

/-! ## Data model

Embeds the tables of `app/db/models.py` that the matching core touches.
Rows are records; a table is a list of rows.  String primary keys are
modelled as natural numbers, the skill many-to-many join of an ad as a
finite set of skill ids on the ad row.  `DbJobsMatches` has the composite
primary key `(ad_id, professional_id, company_id)`; `resume_id` is a
plain non-null column outside the key. -/

structure AdRow where
  id : ℕ
  location : String
  status : String
  min_salary : ℤ
  max_salary : ℤ
  is_resume : Bool
  is_deleted : Bool
  info_id : ℕ
  skills : Finset ℕ
deriving DecidableEq

structure MatchRow where
  ad_id : ℕ
  resume_id : ℕ
  professional_id : ℕ
  company_id : ℕ
  company_approved : Bool
  professional_approved : Bool
  is_deleted : Bool
deriving DecidableEq

structure InfoRow where
  id : ℕ
  main_ad : Option ℕ
  is_deleted : Bool
deriving DecidableEq

structure SkillRow where
  id : ℕ
  name : String
  is_deleted : Bool
deriving DecidableEq

structure ProfessionalRow where
  id : ℕ
  user_id : ℕ
  info_id : Option ℕ
  is_deleted : Bool
deriving DecidableEq

structure CompanyRow where
  id : ℕ
  user_id : ℕ
  info_id : Option ℕ
  is_deleted : Bool
deriving DecidableEq

structure UserRow where
  id : ℕ
  is_deleted : Bool
deriving DecidableEq

structure DB where
  ads : List AdRow
  jobs_matches : List MatchRow
  infos : List InfoRow
  skills : List SkillRow
  professionals : List ProfessionalRow
  companies : List CompanyRow
  users : List UserRow
deriving DecidableEq

/-- Python exceptions that escape or abort the embedded operations. -/
inductive PyError where
  | httpNotFound
  | typeError
  | indexError
deriving DecidableEq

/-! ## Candidate filters

`CRUDCompany.find_matches` (crud_company.py lines 367-370) selects, for a
source job ad, the resumes

    DbAds.is_deleted == False, DbAds.status == Active,
    DbAds.location == location, DbAds.is_resume == True,
    DbAds.min_salary >= salary_range_adjusted_min,
    DbAds.min_salary <= salary_range_adjusted_max

while the professional-side `find_matches` (crud_professional.py lines
422-428) selects, for a source resume, the job ads

    DbAds.is_deleted == False, DbAds.status == Active,
    DbAds.location == resume.location,
    DbAds.min_salary >= salary_range_adjusted_min,
    DbAds.max_salary <= salary_range_adjusted_max,
    DbAds.is_resume == 0
-/

def companyCandidateResumes (ads : List AdRow) (ad : AdRow) (t : ℚ) : List AdRow :=
  let adjMin := salary_range_adjusted_min ad.min_salary t
  let adjMax := salary_range_adjusted_max ad.max_salary t
  ads.filter (fun r =>
    !r.is_deleted && (r.status == "Active") && (r.location == ad.location) &&
      (r.is_resume == true) && decide (adjMin ≤ r.min_salary) &&
      decide (r.min_salary ≤ adjMax))

def professionalCandidateAds (ads : List AdRow) (resume : AdRow) (t : ℚ) : List AdRow :=
  let adjMin := salary_range_adjusted_min resume.min_salary t
  let adjMax := salary_range_adjusted_max resume.max_salary t
  ads.filter (fun a =>
    !a.is_deleted && (a.status == "Active") && (a.location == resume.location) &&
      decide (adjMin ≤ a.min_salary) && decide (a.max_salary ≤ adjMax) &&
      (a.is_resume == false))

/-- The candidate pool as the claim words it (refinement reference, not
derived from the source): ads that are not deleted, Active, at the same
location, of the opposite is-resume kind, and whose own minimum salary
lies within the adjusted band of the source. -/
def claimCandidatePool (ads : List AdRow) (src : AdRow) (t : ℚ) : List AdRow :=
  let adjMin := salary_range_adjusted_min src.min_salary t
  let adjMax := salary_range_adjusted_max src.max_salary t
  ads.filter (fun c =>
    !c.is_deleted && (c.status == "Active") && (c.location == src.location) &&
      (c.is_resume == !src.is_resume) && decide (adjMin ≤ c.min_salary) &&
      decide (c.min_salary ≤ adjMax))

/-- The professional-side pool as amended: the candidate job ad has to
satisfy `min_salary >= adj_min` and `max_salary <= adj_max`. -/
def claimCandidatePoolProfessional (ads : List AdRow) (src : AdRow) (t : ℚ) : List AdRow :=
  let adjMin := salary_range_adjusted_min src.min_salary t
  let adjMax := salary_range_adjusted_max src.max_salary t
  ads.filter (fun c =>
    !c.is_deleted && (c.status == "Active") && (c.location == src.location) &&
      (c.is_resume == !src.is_resume) && decide (adjMin ≤ c.min_salary) &&
      decide (c.max_salary ≤ adjMax))

/-- A source resume and one candidate job ad whose minimum salary lies in
the adjusted band but whose maximum salary exceeds it. -/
def cexResume : AdRow :=
  { id := 1, location := "Sofia", status := "Active", min_salary := 1000,
    max_salary := 2000, is_resume := true, is_deleted := false,
    info_id := 10, skills := {1} }

def cexJobAd : AdRow :=
  { id := 2, location := "Sofia", status := "Active", min_salary := 1500,
    max_salary := 5000, is_resume := false, is_deleted := false,
    info_id := 20, skills := {1} }

/-! ## Company-initiated match proposal

`CRUDCompany.find_matches` (crud_company.py lines 332-393): for each
candidate resume, score the skill sets; on a pass, look up the owning
professional (`resume.info.professional[0].id`), insert a
`DbJobsMatches(ad_id, resume_id, professional_id, company_id)` row and
commit; an `IntegrityError` (a duplicate of the composite primary key
`(ad_id, professional_id, company_id)`) is caught, rolled back and the
loop continues.  A failing professional lookup would raise an uncaught
`TypeError`/`IndexError`, modelled as an error result. -/

/-- First professional row owning the given info id. -/
def professionalOfInfo (ps : List ProfessionalRow) (infoId : ℕ) : Option ℕ :=
  (ps.find? (fun p => p.info_id == some infoId)).map (fun p => p.id)

/-- Membership of the composite primary key of `jobs_matches`. -/
def matchKeyPresent (ms : List MatchRow) (a p c : ℕ) : Bool :=
  ms.any (fun m => m.ad_id == a && m.professional_id == p && m.company_id == c)

/-- A freshly inserted match row; the approval flags and the soft-delete
flag take their column defaults. -/
def newMatchRow (adId resumeId profId compId : ℕ) : MatchRow :=
  { ad_id := adId, resume_id := resumeId, professional_id := profId,
    company_id := compId, company_approved := false,
    professional_approved := false, is_deleted := false }

def companyMatchLoop (cid adId : ℕ) (t : ℚ) (adSkills : Finset ℕ) :
    DB → Bool → List AdRow → Except PyError (DB × Bool)
  | st, res, [] => .ok (st, res)
  | st, res, resume :: rest =>
    if calculate_similarity resume.skills adSkills (scorerThreshold t) = true then
      match professionalOfInfo st.professionals resume.info_id with
      | none => .error .indexError
      | some pid =>
        if matchKeyPresent st.jobs_matches adId pid cid = true then
          companyMatchLoop cid adId t adSkills st res rest
        else
          companyMatchLoop cid adId t adSkills
            { st with jobs_matches :=
                st.jobs_matches ++ [newMatchRow adId resume.id pid cid] }
            true rest
    else
      companyMatchLoop cid adId t adSkills st res rest

def CRUDCompany_find_matches (db : DB) (company : CompanyRow) (adId : ℕ) (t : ℚ) :
    Except PyError (DB × Bool) :=
  if company.info_id = none then .error .httpNotFound
  else
    match db.ads.find? (fun a => a.id == adId && !a.is_deleted) with
    | none => .error .httpNotFound
    | some ad =>
      companyMatchLoop company.id adId t ad.skills db false
        (companyCandidateResumes db.ads ad t)

/-! ### A concrete proposal run -/

def exCompanyAd : AdRow :=
  { id := 1, location := "Sofia", status := "Active", min_salary := 1000,
    max_salary := 2000, is_resume := false, is_deleted := false,
    info_id := 20, skills := {1} }

def exMatchResume : AdRow :=
  { id := 5, location := "Sofia", status := "Active", min_salary := 1000,
    max_salary := 2000, is_resume := true, is_deleted := false,
    info_id := 10, skills := {1} }

def exProfessional : ProfessionalRow :=
  { id := 7, user_id := 70, info_id := some 10, is_deleted := false }

def exCompanyRow : CompanyRow :=
  { id := 3, user_id := 30, info_id := some 20, is_deleted := false }

def exDB : DB :=
  { ads := [exCompanyAd, exMatchResume], jobs_matches := [], infos := [],
    skills := [], professionals := [exProfessional],
    companies := [exCompanyRow], users := [] }

def exDBAfter : DB := { exDB with jobs_matches := [newMatchRow 1 5 7 3] }

/-! ## Professional-initiated match proposal

The professional-side `find_matches` (crud_professional.py lines
403-453) iterates over every ad owned by the professional, filters
candidate job ads, resolves the company of each candidate and scores the
skill sets.  On a pass it executes

    DbJobsMatches(ad_id=ad.id, professional_id=professional.id,
                  company_id=company_id, approved=False)

`approved` is not a mapped column of `DbJobsMatches` (the model declares
`company_approved` and `professional_approved`), so the SQLAlchemy
constructor raises a `TypeError`; the surrounding `except IntegrityError`
clause does not catch it and the call aborts.  The constructor also
passes no `resume_id` even though the column is declared non-null.  No
row is ever added or committed, so the database component of the result
is always the input database.  A candidate whose company lookup returns
no row would raise an uncaught `TypeError` at `company[0]`. -/

/-- First company row owning the given info id. -/
def companyOfInfo (cs : List CompanyRow) (infoId : ℕ) : Option ℕ :=
  (cs.find? (fun c => c.info_id == some infoId)).map (fun c => c.id)

def professionalAdLoop (db : DB) (t : ℚ) (resumeSkills : Finset ℕ) :
    Bool → List AdRow → Except PyError Bool
  | res, [] => .ok res
  | res, ad :: rest =>
    match companyOfInfo db.companies ad.info_id with
    | none => .error .typeError
    | some _ =>
      if calculate_similarity resumeSkills ad.skills (scorerThreshold t) = true then
        .error .typeError
      else
        professionalAdLoop db t resumeSkills res rest

def professionalResumeLoop (db : DB) (t : ℚ) : Bool → List AdRow → Except PyError Bool
  | res, [] => .ok res
  | res, resume :: rest =>
    match professionalAdLoop db t resume.skills res
        (professionalCandidateAds db.ads resume t) with
    | .error e => .error e
    | .ok r => professionalResumeLoop db t r rest

def professional_find_matches (db : DB) (prof : ProfessionalRow) (t : ℚ) :
    Except PyError (DB × Bool) :=
  match prof.info_id with
  | none => .error .httpNotFound
  | some infoId =>
    let resumes := db.ads.filter (fun a => a.info_id == infoId)
    if resumes.isEmpty = true then .error .httpNotFound
    else
      match professionalResumeLoop db t false resumes with
      | .error e => .error e
      | .ok true => .ok (db, true)
      | .ok false => .error .httpNotFound

/-! ## Match approval

`CRUDCompany.approve_match` (crud_company.py lines 420-451) fetches the
first non-deleted match with the given resume id and company id and sets
`company_approved = True`.  The professional-side `approve_match_by_ad_id`
(crud_professional.py lines 497-521) fetches the first non-deleted match
with the given ad id and assigns True to `approved`, which is not a
mapped column of `DbJobsMatches`; the assignment creates a transient
Python attribute, the commit persists no column change, and only the
success message is produced.  Its own test
(`test_approve_match_by_ad_id_success`) asserts
`professional_approved == True` afterwards and therefore fails. -/

def setCompanyApprovedFirst : List MatchRow → ℕ → ℕ → List MatchRow
  | [], _, _ => []
  | m :: rest, rid, cid =>
    if (!m.is_deleted && m.resume_id == rid && m.company_id == cid) = true then
      { m with company_approved := true } :: rest
    else m :: setCompanyApprovedFirst rest rid cid

def CRUDCompany_approve_match (db : DB) (resumeId companyId : ℕ) :
    Except PyError (DB × String) :=
  if db.jobs_matches.any
      (fun m => !m.is_deleted && m.resume_id == resumeId && m.company_id == companyId) then
    .ok ({ db with jobs_matches := setCompanyApprovedFirst db.jobs_matches resumeId companyId },
      "Match approved!")
  else .error .httpNotFound

def approve_match_by_ad_id (db : DB) (adId : ℕ) : Except PyError (DB × String) :=
  match db.jobs_matches.find? (fun m => m.ad_id == adId && !m.is_deleted) with
  | some _ => .ok (db, "Match approved!")
  | none => .error .httpNotFound

/-- A database holding one pending match, both approval flags false. -/
def exDB8 : DB :=
  { ads := [], jobs_matches := [newMatchRow 1 5 7 3], infos := [],
    skills := [], professionals := [], companies := [], users := [] }

/-! ## Ad deletion and its cascade

`delete_ad_crud` (crud_ad.py lines 238-275): fetch the ad (`get_ad`
filters out soft-deleted rows), then, only when the current user owns a
professionals row, run `if_main_resume`; in every case run
`delete_job_matches` and set the is_deleted flag of the ad.  The
authorization check raises on foreign non-admin users and has no state
effect, so it is not modelled. -/

/-- crud_ad.py if_main_resume (lines 691-707): the first info row whose
main_ad references the ad gets the reference cleared (`.first()`). -/
def clearMainAdFirst : List InfoRow → ℕ → List InfoRow
  | [], _ => []
  | i :: rest, adId =>
    if i.main_ad == some adId then { i with main_ad := none } :: rest
    else i :: clearMainAdFirst rest adId

def if_main_resume (db : DB) (adId : ℕ) : DB :=
  { db with infos := clearMainAdFirst db.infos adId }

/-- crud_ad.py delete_job_matches (lines 710-731): flag the matches on
the resume side when the ad is a resume, else on the job-ad side. -/
def delete_job_matches (db : DB) (ad : AdRow) : DB :=
  if ad.is_resume = true then
    { db with jobs_matches :=
        db.jobs_matches.map (fun m =>
          if m.resume_id = ad.id then { m with is_deleted := true } else m) }
  else
    { db with jobs_matches :=
        db.jobs_matches.map (fun m =>
          if m.ad_id = ad.id then { m with is_deleted := true } else m) }

def delete_ad_crud (db : DB) (adId : ℕ) (deleterIsProfessional : Bool) :
    Except PyError DB :=
  match db.ads.find? (fun a => a.id == adId && !a.is_deleted) with
  | none => .error .httpNotFound
  | some ad =>
    let db1 : DB := cond deleterIsProfessional (if_main_resume db adId) db
    let db2 : DB := delete_job_matches db1 ad
    .ok { db2 with ads :=
        db2.ads.map (fun a =>
          if a.id = adId then { a with is_deleted := true } else a) }

/-! ## The other deletion operations

All remaining deletion endpoints only flip is_deleted flags.  The one
hard delete in the crud layer is `delete_resume_by_id`
(crud_professional.py lines 222-231), whose route is commented out
(professionals.py lines 251-255): it calls `db.delete(resume)`, and the
`all, delete-orphan` cascade configured on the `DbAds.match`
relationship (models.py line 119) then also removes the match rows whose
ad_id is the id of the deleted ad. -/

def delete_resume_by_id (db : DB) (prof : ProfessionalRow) (resumeId : ℕ) :
    Except PyError DB :=
  match db.ads.find? (fun a => a.id == resumeId && !a.is_deleted) with
  | none => .error .httpNotFound
  | some resume =>
    match prof.info_id with
    | none => .error .typeError
    | some pinfo =>
      if resume.info_id = pinfo then
        .ok { db with
          ads := db.ads.filter (fun a => !(a.id == resume.id)),
          jobs_matches := db.jobs_matches.filter (fun m => !(m.ad_id == resume.id)) }
      else .error .httpNotFound

/-- crud_ad.py delete_skill_crud (lines 372-395): the first non-deleted
skill with the given name is flagged. -/
def flagFirstSkill : List SkillRow → String → List SkillRow
  | [], _ => []
  | s :: rest, n =>
    if (s.name == n && !s.is_deleted) = true then { s with is_deleted := true } :: rest
    else s :: flagFirstSkill rest n

def delete_skill_crud (db : DB) (skillName : String) : Except PyError DB :=
  if db.skills.any (fun s => s.name == skillName && !s.is_deleted) then
    .ok { db with skills := flagFirstSkill db.skills skillName }
  else .error .httpNotFound

/-- crud_professional.py delete_professional_by_id (lines 234-256) plus
DbProfessionals.mark_as_deleted (models.py lines 57-66): flag the resumes
of the professional, then the user, the info, the matches on the
professional side and the professional row itself (a missing professional
row would raise an uncaught AttributeError, modelled as an error). -/
def delete_professional_by_id (db : DB) (profId : ℕ) : Except PyError DB :=
  match db.professionals.find? (fun p => p.id == profId) with
  | none => .error .typeError
  | some prof =>
    let db1 : DB :=
      { db with ads :=
          db.ads.map (fun a =>
            if some a.info_id == prof.info_id then { a with is_deleted := true } else a) }
    .ok { db1 with
      users :=
        db1.users.map (fun u =>
          if u.id == prof.user_id then { u with is_deleted := true } else u),
      infos :=
        db1.infos.map (fun i =>
          if some i.id == prof.info_id then { i with is_deleted := true } else i),
      jobs_matches :=
        db1.jobs_matches.map (fun m =>
          if m.professional_id == prof.id then { m with is_deleted := true } else m),
      professionals :=
        db1.professionals.map (fun p =>
          if p.id == prof.id then { p with is_deleted := true } else p) }

/-- crud_company.py CRUDCompany.delete_by_id (lines 107-144) plus
DbCompanies.mark_as_deleted (models.py lines 81-90). -/
def CRUDCompany_delete_by_id (db : DB) (companyId : ℕ) : Except PyError DB :=
  match db.companies.find? (fun c => c.id == companyId && !c.is_deleted) with
  | none => .error .httpNotFound
  | some comp =>
    let db1 : DB :=
      { db with ads :=
          db.ads.map (fun a =>
            if some a.info_id == comp.info_id then { a with is_deleted := true } else a) }
    .ok { db1 with
      users :=
        db1.users.map (fun u =>
          if u.id == comp.user_id then { u with is_deleted := true } else u),
      infos :=
        db1.infos.map (fun i =>
          if some i.id == comp.info_id then { i with is_deleted := true } else i),
      jobs_matches :=
        db1.jobs_matches.map (fun m =>
          if m.company_id == comp.id then { m with is_deleted := true } else m),
      companies :=
        db1.companies.map (fun c =>
          if c.id == comp.id then { c with is_deleted := true } else c) }

/-- crud_company.py CRUDCompany.delete_info_by_id (lines 239-274). -/
def CRUDCompany_delete_info_by_id (db : DB) (infoId : ℕ) : Except PyError DB :=
  match db.infos.find? (fun i => i.id == infoId) with
  | none => .error .httpNotFound
  | some _ =>
    .ok { db with infos :=
      db.infos.map (fun i =>
        if i.id == infoId then { i with is_deleted := true } else i) }

/-! ### Concrete deletion scenarios -/

def exInfo9 : InfoRow := { id := 10, main_ad := some 5, is_deleted := false }

def exDB9 : DB :=
  { ads := [exMatchResume], jobs_matches := [newMatchRow 1 5 7 3],
    infos := [exInfo9], skills := [], professionals := [exProfessional],
    companies := [], users := [] }

def exDB9out : DB :=
  { ads := [{ exMatchResume with is_deleted := true }],
    jobs_matches := [{ newMatchRow 1 5 7 3 with is_deleted := true }],
    infos := [{ id := 10, main_ad := none, is_deleted := false }],
    skills := [], professionals := [exProfessional],
    companies := [], users := [] }

def exDB10 : DB :=
  { ads := [exMatchResume], jobs_matches := [newMatchRow 5 99 7 3],
    infos := [], skills := [], professionals := [exProfessional],
    companies := [], users := [] }

/-- The identifying columns of every table, used to state that an
operation removes no row. -/
def tableIds (db : DB) :
    List ℕ × List (ℕ × ℕ × ℕ × ℕ) × List ℕ × List ℕ × List ℕ × List ℕ × List ℕ :=
  (db.ads.map (fun a => a.id),
   db.jobs_matches.map (fun m => (m.ad_id, m.resume_id, m.professional_id, m.company_id)),
   db.infos.map (fun i => i.id),
   db.skills.map (fun s => s.id),
   db.professionals.map (fun p => p.id),
   db.companies.map (fun c => c.id),
   db.users.map (fun u => u.id))

/-! ## Lemmas and claim theorems -/

lemma ratFloor_eq_floor (q : ℚ) : ratFloor q = ⌊q⌋ :=
  Rat.floor_def.symm

/-! ## Helper lemmas on the numeric primitives -/

lemma pyInt_of_nonneg {q : ℚ} (h : 0 ≤ q) : pyInt q = ⌊q⌋ := by
  simp [pyInt, h, ratFloor_eq_floor]

lemma roundHalfEven_floor (q : ℚ) :
    roundHalfEven q =
      if q - (⌊q⌋ : ℚ) < 1/2 then ⌊q⌋
      else if 1/2 < q - (⌊q⌋ : ℚ) then ⌊q⌋ + 1
      else if ⌊q⌋ % 2 = 0 then ⌊q⌋ else ⌊q⌋ + 1 := by
  simp only [roundHalfEven, ratFloor_eq_floor]

lemma roundHalfEven_lower (q : ℚ) : ⌊q⌋ ≤ roundHalfEven q := by
  rw [roundHalfEven_floor]
  split_ifs <;> omega

lemma roundHalfEven_upper (q : ℚ) : roundHalfEven q ≤ ⌊q⌋ + 1 := by
  rw [roundHalfEven_floor]
  split_ifs <;> omega

lemma roundHalfEven_mono {q r : ℚ} (h : q ≤ r) :
    roundHalfEven q ≤ roundHalfEven r := by
  have hf : ⌊q⌋ ≤ ⌊r⌋ := Int.floor_le_floor h
  rcases eq_or_lt_of_le hf with heq | hlt
  · rw [roundHalfEven_floor, roundHalfEven_floor, ← heq]
    split_ifs <;> first | omega | linarith
  · have h1 := roundHalfEven_upper q
    have h2 := roundHalfEven_lower r
    omega

lemma pyRound2_mono {q r : ℚ} (h : q ≤ r) : pyRound2 q ≤ pyRound2 r := by
  unfold pyRound2
  have hm : roundHalfEven (q * 100) ≤ roundHalfEven (r * 100) :=
    roundHalfEven_mono (by linarith)
  have : ((roundHalfEven (q * 100) : ℚ)) ≤ ((roundHalfEven (r * 100) : ℚ)) := by
    exact_mod_cast hm
  linarith

/-! ## Claim theorems on the scorer and the numeric pipeline -/

lemma calculate_similarity_char (A B : Finset ℕ) (t : ℚ) :
    ((A ∪ B).Nonempty →
      (calculate_similarity A B t = true ↔
        ((A ∩ B).card : ℚ) / ((A ∪ B).card : ℚ) ≥ t)) ∧
    (A ∪ B = ∅ → calculate_similarity A B t = false) := by
  constructor
  · intro hne
    have hcard : (A ∪ B).card ≠ 0 := by
      simpa [Finset.card_eq_zero] using hne.ne_empty
    simp [calculate_similarity, hcard]
  · intro hemp
    simp [calculate_similarity, hemp]

/-- C1: for every pair of skill-id sets and every threshold,
`calculate_similarity` computes the Jaccard index, cardinality of the
intersection over cardinality of the union, and returns whether that
ratio is at least the threshold; when the union is empty it returns a
falsy result regardless of the threshold. -/
theorem calculate_similarity_jaccard (A B : Finset ℕ) (t : ℚ) :
    ((A ∪ B).Nonempty →
      (calculate_similarity A B t = true ↔
        ((A ∩ B).card : ℚ) / ((A ∪ B).card : ℚ) ≥ t)) ∧
    (A ∪ B = ∅ → calculate_similarity A B t = false) :=
  calculate_similarity_char A B t

/-- Witness for C1 at a concrete input: the sets are both nonempty and
equal, so the ratio is one and any threshold at most one passes. -/
theorem calculate_similarity_jaccard_witness :
    calculate_similarity {1} {1} (1/2) = true := by
  have h := (calculate_similarity_jaccard {1} {1} (1/2)).1 (by decide)
  rw [h]
  norm_num [Finset.inter_self, Finset.union_self, Finset.card_singleton]

/-- C2: for every laxity percentage handed to the match-search endpoints
(both derive the value identically), the threshold passed on to the
similarity scorer is `1 - round(p / 100, 2)`; the derived threshold is
antitone in the percentage, so a larger adjustment percentage loosens
the required skill overlap. -/
theorem scorer_threshold_derivation (p q : ℚ) :
    scorerThreshold (matchEndpointThreshold p) = 1 - pyRound2 (p / 100) ∧
    (p ≤ q →
      scorerThreshold (matchEndpointThreshold q) ≤
        scorerThreshold (matchEndpointThreshold p)) := by
  constructor
  · rfl
  · intro hpq
    have : pyRound2 (p / 100) ≤ pyRound2 (q / 100) :=
      pyRound2_mono (by linarith)
    simp only [scorerThreshold, matchEndpointThreshold]
    linarith

/-- Witness for C2 at concrete percentages zero and fifty. -/
theorem scorer_threshold_derivation_witness :
    scorerThreshold (matchEndpointThreshold 50) ≤
      scorerThreshold (matchEndpointThreshold 0) :=
  (scorer_threshold_derivation 0 50).2 (by norm_num)

/-- C3 counterexample: with source maximum salary 2001 and laxity
one half, the code computes `int(2001 + 2001 * 0.5) = 3001`, whereas the
claimed ceiling is 3002.  The adjusted maximum is therefore not the
ceiling of `max_salary + max_salary * p`. -/
theorem adjusted_max_not_ceil :
    ¬ (salary_range_adjusted_max 2001 (1/2) =
        ⌈(2001 : ℚ) + (2001 : ℚ) * (1/2)⌉) := by
  have h1 : salary_range_adjusted_max 2001 (1/2) = 3001 := by
    unfold salary_range_adjusted_max
    rw [pyInt_of_nonneg (by norm_num)]
    rw [Int.floor_eq_iff]
    constructor <;> norm_num
  have h2 : ⌈(2001 : ℚ) + (2001 : ℚ) * (1/2)⌉ = 3002 := by
    rw [Int.ceil_eq_iff]
    constructor <;> norm_num
  rw [h1, h2]
  decide

/-- C3 amended: for non-negative integer salaries and laxity fraction
between zero and one, the candidate filter computes
`adj_min = floor(min_salary - min_salary * p)` and
`adj_max = floor(max_salary + max_salary * p)` (Python `int` truncates
toward zero, which on these non-negative values is the floor, not the
ceiling), on both the company-initiated and professional-initiated
search (both embed the same two lines of arithmetic). -/
theorem adjusted_band_is_floor (m M : ℤ) (p : ℚ)
    (hm : 0 ≤ m) (hM : 0 ≤ M) (hp0 : 0 ≤ p) (hp1 : p ≤ 1) :
    salary_range_adjusted_min m p = ⌊(m : ℚ) - (m : ℚ) * p⌋ ∧
    salary_range_adjusted_max M p = ⌊(M : ℚ) + (M : ℚ) * p⌋ := by
  have hmq : (0 : ℚ) ≤ (m : ℚ) := by exact_mod_cast hm
  have hMq : (0 : ℚ) ≤ (M : ℚ) := by exact_mod_cast hM
  constructor
  · apply pyInt_of_nonneg
    nlinarith
  · apply pyInt_of_nonneg
    nlinarith

/-- Witness for C3 amended at concrete salaries 1000 and 2001 with laxity
one half. -/
theorem adjusted_band_is_floor_witness :
    salary_range_adjusted_min 1000 (1/2) = ⌊(1000 : ℚ) - (1000 : ℚ) * (1/2)⌋ ∧
    salary_range_adjusted_max 2001 (1/2) = ⌊(2001 : ℚ) + (2001 : ℚ) * (1/2)⌋ :=
  adjusted_band_is_floor 1000 2001 (1/2) (by norm_num) (by norm_num)
    (by norm_num) (by norm_num)

/-- C7 counterexample: on two empty sets and threshold zero the code
returns the falsy integer zero, not a truthy result, so
`calculate_similarity(A, B, 0)` is not true for every pair of sets. -/
theorem similarity_zero_threshold_cex :
    calculate_similarity (∅ : Finset ℕ) (∅ : Finset ℕ) 0 = false := by
  decide

/-- C7 amended: `calculate_similarity(A, B, 0)` is true whenever the
union of the two sets is nonempty (the both-empty case returns a falsy
result for every threshold); and `calculate_similarity(A, B, 1)` is true
exactly when the two sets are equal and nonempty. -/
theorem similarity_threshold_extremes (A B : Finset ℕ) :
    ((A ∪ B).Nonempty → calculate_similarity A B 0 = true) ∧
    (calculate_similarity A B 1 = true ↔ A = B ∧ A.Nonempty) := by
  constructor
  · intro hne
    rw [(calculate_similarity_char A B 0).1 hne]
    positivity
  · by_cases hemp : A ∪ B = ∅
    · have hA : A = ∅ := by
        have := Finset.union_eq_empty.mp hemp
        exact this.1
      rw [(calculate_similarity_char A B 1).2 hemp]
      simp [hA]
    · have hne : (A ∪ B).Nonempty := Finset.nonempty_of_ne_empty hemp
      rw [(calculate_similarity_char A B 1).1 hne]
      have hupos : 0 < ((A ∪ B).card : ℚ) := by
        have : 0 < (A ∪ B).card := Finset.card_pos.mpr hne
        exact_mod_cast this
      constructor
      · intro hge
        have hle : ((A ∪ B).card : ℚ) ≤ ((A ∩ B).card : ℚ) := by
          have := (one_le_div hupos).mp hge
          exact this
        have hcardle : (A ∪ B).card ≤ (A ∩ B).card := by exact_mod_cast hle
        have hsub : A ∩ B ⊆ A ∪ B := Finset.inter_subset_union
        have heq : A ∩ B = A ∪ B := Finset.eq_of_subset_of_card_le hsub hcardle
        have hAB : A = B := by
          have hA : A ⊆ B := by
            intro x hx
            have : x ∈ A ∪ B := Finset.mem_union_left _ hx
            rw [← heq] at this
            exact (Finset.mem_inter.mp this).2
          have hB : B ⊆ A := by
            intro x hx
            have : x ∈ A ∪ B := Finset.mem_union_right _ hx
            rw [← heq] at this
            exact (Finset.mem_inter.mp this).1
          exact Finset.Subset.antisymm hA hB
        refine ⟨hAB, ?_⟩
        rcases hne with ⟨x, hx⟩
        rcases Finset.mem_union.mp hx with hxa | hxb
        · exact ⟨x, hxa⟩
        · exact ⟨x, hAB ▸ hxb⟩
      · rintro ⟨hAB, _⟩
        subst hAB
        simp only [Finset.union_self, Finset.inter_self] at *
        rw [ge_iff_le, one_le_div hupos]

/-- Witness for C7 amended: two equal nonempty singletons pass threshold
one, and a nonempty union passes threshold zero. -/
theorem similarity_threshold_extremes_witness :
    calculate_similarity {1} {1} 0 = true ∧
    calculate_similarity {1} {1} 1 = true := by
  refine ⟨(similarity_threshold_extremes {1} {1}).1 (by decide), ?_⟩
  exact (similarity_threshold_extremes {1} {1}).2.mpr ⟨rfl, by decide⟩

/-- C4 counterexample: on the professional-initiated search the claimed
pool (candidate minimum salary within the band) contains the job ad, but
the code filters on the candidate maximum salary against the adjusted
maximum and rejects it, so the pool is not what the claim states. -/
theorem professional_pool_cex :
    claimCandidatePool [cexJobAd] cexResume 0 = [cexJobAd] ∧
    professionalCandidateAds [cexJobAd] cexResume 0 = [] := by
  have hmin : salary_range_adjusted_min (1000 : ℤ) 0 = 1000 := by
    unfold salary_range_adjusted_min
    rw [pyInt_of_nonneg (by norm_num)]
    rw [Int.floor_eq_iff]
    constructor <;> norm_num
  have hmax : salary_range_adjusted_max (2000 : ℤ) 0 = 2000 := by
    unfold salary_range_adjusted_max
    rw [pyInt_of_nonneg (by norm_num)]
    rw [Int.floor_eq_iff]
    constructor <;> norm_num
  constructor
  · simp only [claimCandidatePool, cexResume, cexJobAd, hmin, hmax]
    simp [List.filter]
  · simp only [professionalCandidateAds, cexResume, cexJobAd, hmin, hmax]
    simp [List.filter]

/-- C4 amended: the company-initiated pool is exactly as the claim
states; the professional-initiated pool replaces the condition on the
candidate minimum salary against the adjusted maximum by a condition on
the candidate maximum salary. -/
theorem candidate_pools (ads : List AdRow) (src : AdRow) (t : ℚ) :
    (src.is_resume = false →
      companyCandidateResumes ads src t = claimCandidatePool ads src t) ∧
    (src.is_resume = true →
      professionalCandidateAds ads src t = claimCandidatePoolProfessional ads src t) := by
  constructor
  · intro h
    unfold companyCandidateResumes claimCandidatePool
    simp only [h]
    apply List.filter_congr
    intro c _
    simp only [Bool.not_false]
  · intro h
    unfold professionalCandidateAds claimCandidatePoolProfessional
    simp only [h]
    apply List.filter_congr
    intro c _
    simp only [Bool.not_true]
    ac_rfl

/-- Witness for C4 amended at a concrete source resume and job ad. -/
theorem candidate_pools_witness :
    professionalCandidateAds [cexJobAd] cexResume 0 =
      claimCandidatePoolProfessional [cexJobAd] cexResume 0 :=
  (candidate_pools [cexJobAd] cexResume 0).2 rfl

/-! ### Structural lemmas about the proposal loop -/

lemma matchKeyPresent_append_left {ms ns : List MatchRow} {a p c : ℕ}
    (h : matchKeyPresent ms a p c = true) :
    matchKeyPresent (ms ++ ns) a p c = true := by
  unfold matchKeyPresent at h ⊢
  rw [List.any_append, h, Bool.true_or]

lemma companyMatchLoop_ok_state (cid adId : ℕ) (t : ℚ) (adSkills : Finset ℕ) :
    ∀ (l : List AdRow) (st : DB) (res : Bool) (st' : DB) (r' : Bool),
      companyMatchLoop cid adId t adSkills st res l = .ok (st', r') →
      st'.ads = st.ads ∧ st'.professionals = st.professionals ∧
        ∃ ext, st'.jobs_matches = st.jobs_matches ++ ext := by
  intro l
  induction l with
  | nil =>
    intro st res st' r' h
    simp only [companyMatchLoop, Except.ok.injEq, Prod.mk.injEq] at h
    obtain ⟨h1, _⟩ := h
    subst h1
    exact ⟨rfl, rfl, [], by simp⟩
  | cons resume rest ih =>
    intro st res st' r' h
    simp only [companyMatchLoop] at h
    by_cases hsim : calculate_similarity resume.skills adSkills (scorerThreshold t) = true
    · rw [if_pos hsim] at h
      cases hpo : professionalOfInfo st.professionals resume.info_id with
      | none => rw [hpo] at h; simp at h
      | some pid =>
        rw [hpo] at h
        simp only [] at h
        by_cases hkey : matchKeyPresent st.jobs_matches adId pid cid = true
        · rw [if_pos hkey] at h
          exact ih st res st' r' h
        · rw [if_neg hkey] at h
          obtain ⟨h1, h2, ext, h3⟩ := ih _ true st' r' h
          refine ⟨h1, h2, newMatchRow adId resume.id pid cid :: ext, ?_⟩
          rw [h3]
          simp
    · rw [if_neg hsim] at h
      exact ih st res st' r' h

lemma companyMatchLoop_covers (cid adId : ℕ) (t : ℚ) (adSkills : Finset ℕ) :
    ∀ (l : List AdRow) (st : DB) (res : Bool) (st' : DB) (r' : Bool),
      companyMatchLoop cid adId t adSkills st res l = .ok (st', r') →
      ∀ resume ∈ l,
        calculate_similarity resume.skills adSkills (scorerThreshold t) = true →
        ∃ pid, professionalOfInfo st'.professionals resume.info_id = some pid ∧
          matchKeyPresent st'.jobs_matches adId pid cid = true := by
  intro l
  induction l with
  | nil =>
    intro st res st' r' _ resume hmem
    exact absurd hmem (List.not_mem_nil resume)
  | cons head rest ih =>
    intro st res st' r' h resume hmem hsim
    simp only [companyMatchLoop] at h
    rcases List.mem_cons.mp hmem with hres | hres
    · subst hres
      rw [if_pos hsim] at h
      cases hpo : professionalOfInfo st.professionals resume.info_id with
      | none => rw [hpo] at h; simp at h
      | some pid =>
        rw [hpo] at h
        simp only [] at h
        by_cases hkey : matchKeyPresent st.jobs_matches adId pid cid = true
        · rw [if_pos hkey] at h
          obtain ⟨_, hprof, ext, hjm⟩ := companyMatchLoop_ok_state cid adId t adSkills rest st res st' r' h
          refine ⟨pid, ?_, ?_⟩
          · rw [hprof]; exact hpo
          · rw [hjm]; exact matchKeyPresent_append_left hkey
        · rw [if_neg hkey] at h
          obtain ⟨_, hprof, ext, hjm⟩ := companyMatchLoop_ok_state cid adId t adSkills rest _ true st' r' h
          refine ⟨pid, ?_, ?_⟩
          · rw [hprof]; exact hpo
          · rw [hjm]
            apply matchKeyPresent_append_left
            unfold matchKeyPresent
            simp [List.any_append, newMatchRow]
    · by_cases hsimh : calculate_similarity head.skills adSkills (scorerThreshold t) = true
      · rw [if_pos hsimh] at h
        cases hpo : professionalOfInfo st.professionals head.info_id with
        | none => rw [hpo] at h; simp at h
        | some pid =>
          rw [hpo] at h
          simp only [] at h
          by_cases hkey : matchKeyPresent st.jobs_matches adId pid cid = true
          · rw [if_pos hkey] at h
            exact ih st res st' r' h resume hres hsim
          · rw [if_neg hkey] at h
            exact ih _ true st' r' h resume hres hsim
      · rw [if_neg hsimh] at h
        exact ih st res st' r' h resume hres hsim

lemma companyMatchLoop_skip_all (cid adId : ℕ) (t : ℚ) (adSkills : Finset ℕ) :
    ∀ (l : List AdRow) (st : DB) (res : Bool),
      (∀ resume ∈ l,
        calculate_similarity resume.skills adSkills (scorerThreshold t) = true →
        ∃ pid, professionalOfInfo st.professionals resume.info_id = some pid ∧
          matchKeyPresent st.jobs_matches adId pid cid = true) →
      companyMatchLoop cid adId t adSkills st res l = .ok (st, res) := by
  intro l
  induction l with
  | nil => intro st res _; simp [companyMatchLoop]
  | cons head rest ih =>
    intro st res hcov
    simp only [companyMatchLoop]
    by_cases hsim : calculate_similarity head.skills adSkills (scorerThreshold t) = true
    · rw [if_pos hsim]
      obtain ⟨pid, hpo, hkey⟩ := hcov head (List.mem_cons_self head rest) hsim
      rw [hpo]
      simp only []
      rw [if_pos hkey]
      exact ih st res (fun resume hmem hs => hcov resume (List.mem_cons_of_mem head hmem) hs)
    · rw [if_neg hsim]
      exact ih st res (fun resume hmem hs => hcov resume (List.mem_cons_of_mem head hmem) hs)

/-- C6: running the company-initiated match proposal a second time with
the identical source ad and laxity leaves the database exactly as it was
after the first run: every insert the second run attempts hits the
composite primary key of a row the first run guaranteed, the
IntegrityError is swallowed and the loop continues, so no duplicate row
is persisted and the second run reports that nothing new was created. -/
theorem find_matches_idempotent (db : DB) (company : CompanyRow) (adId : ℕ) (t : ℚ)
    (st1 : DB) (r1 : Bool)
    (h : CRUDCompany_find_matches db company adId t = .ok (st1, r1)) :
    CRUDCompany_find_matches st1 company adId t = .ok (st1, false) := by
  unfold CRUDCompany_find_matches at h ⊢
  by_cases hinfo : company.info_id = none
  · rw [if_pos hinfo] at h; simp at h
  · rw [if_neg hinfo] at h ⊢
    cases hfind : db.ads.find? (fun a => a.id == adId && !a.is_deleted) with
    | none => rw [hfind] at h; simp at h
    | some ad =>
      rw [hfind] at h
      simp only [] at h
      obtain ⟨hads, _, _, _⟩ :=
        companyMatchLoop_ok_state company.id adId t ad.skills
          (companyCandidateResumes db.ads ad t) db false st1 r1 h
      rw [show st1.ads.find? (fun a => a.id == adId && !a.is_deleted) = some ad by rw [hads, hfind]]
      simp only []
      rw [show companyCandidateResumes st1.ads ad t = companyCandidateResumes db.ads ad t by rw [hads]]
      apply companyMatchLoop_skip_all
      intro resume hmem hsim
      exact companyMatchLoop_covers company.id adId t ad.skills
        (companyCandidateResumes db.ads ad t) db false st1 r1 h resume hmem hsim

/-! ### Concrete evaluation helpers -/

lemma pyInt_intCast (m : ℤ) : pyInt ((m : ℚ)) = m := by
  unfold pyInt
  split_ifs with h
  · rw [ratFloor_eq_floor, Int.floor_intCast]
  · rw [ratFloor_eq_floor, ← Int.cast_neg, Int.floor_intCast, neg_neg]

lemma adjusted_min_zero (m : ℤ) : salary_range_adjusted_min m 0 = m := by
  unfold salary_range_adjusted_min
  rw [show (m : ℚ) - (m : ℚ) * 0 = (m : ℚ) by ring, pyInt_intCast]

lemma adjusted_max_zero (m : ℤ) : salary_range_adjusted_max m 0 = m := by
  unfold salary_range_adjusted_max
  rw [show (m : ℚ) + (m : ℚ) * 0 = (m : ℚ) by ring, pyInt_intCast]

lemma calculate_similarity_self {A : Finset ℕ} (hA : A.Nonempty) {t : ℚ} (ht : t ≤ 1) :
    calculate_similarity A A t = true := by
  simp only [calculate_similarity, Finset.inter_self, Finset.union_self]
  rw [if_neg (by simpa [Finset.card_eq_zero] using hA.ne_empty)]
  rw [decide_eq_true_eq]
  have hpos : 0 < (A.card : ℚ) := by exact_mod_cast Finset.card_pos.mpr hA
  rw [ge_iff_le, div_self (ne_of_gt hpos)]
  exact ht

lemma exDB_first_run :
    CRUDCompany_find_matches exDB exCompanyRow 1 0 = .ok (exDBAfter, true) := by
  unfold CRUDCompany_find_matches
  rw [if_neg (by simp [exCompanyRow])]
  rw [show exDB.ads.find? (fun a => a.id == 1 && !a.is_deleted) = some exCompanyAd from rfl]
  simp only []
  have hcand : companyCandidateResumes exDB.ads exCompanyAd 0 = [exMatchResume] := by
    simp only [companyCandidateResumes, adjusted_min_zero, adjusted_max_zero]
    rfl
  rw [hcand]
  simp only [companyMatchLoop]
  have hsim : calculate_similarity exMatchResume.skills exCompanyAd.skills
      (scorerThreshold 0) = true := by
    apply calculate_similarity_self
    · exact ⟨1, by decide⟩
    · unfold scorerThreshold; norm_num
  rw [if_pos hsim]
  rw [show professionalOfInfo exDB.professionals exMatchResume.info_id = some 7 from rfl]
  simp only []
  rw [if_neg (by decide)]
  rfl

/-- Witness for C6: after a run that created one match, a second
identical run returns the same database and reports nothing new. -/
theorem find_matches_idempotent_witness :
    CRUDCompany_find_matches exDBAfter exCompanyRow 1 0 = .ok (exDBAfter, false) :=
  find_matches_idempotent exDB exCompanyRow 1 0 exDBAfter true exDB_first_run

/-- C5: on a database where a candidate job ad passes the similarity
check, the professional-initiated search aborts with the uncaught
`TypeError` raised by `DbJobsMatches(..., approved=False)` instead of
persisting a match row carrying the four identifiers; in particular it
never reaches a successful result and never adds a row (the claim holds
only for the company-initiated side). -/
theorem professional_find_matches_crash :
    professional_find_matches exDB exProfessional 0 = .error .typeError := by
  unfold professional_find_matches
  rw [show exProfessional.info_id = some 10 from rfl]
  simp only []
  rw [show exDB.ads.filter (fun a => a.info_id == 10) = [exMatchResume] from rfl]
  rw [if_neg (by decide)]
  have hsim : calculate_similarity exMatchResume.skills exCompanyAd.skills
      (scorerThreshold 0) = true := by
    apply calculate_similarity_self
    · exact ⟨1, by decide⟩
    · unfold scorerThreshold; norm_num
  have hloop : professionalResumeLoop exDB 0 false [exMatchResume] = .error .typeError := by
    simp only [professionalResumeLoop]
    have hcand : professionalCandidateAds exDB.ads exMatchResume 0 = [exCompanyAd] := by
      simp only [professionalCandidateAds, adjusted_min_zero, adjusted_max_zero]
      rfl
    rw [hcand]
    simp only [professionalAdLoop]
    rw [show companyOfInfo exDB.companies exCompanyAd.info_id = some 3 from rfl]
    simp only []
    rw [if_pos hsim]
  rw [hloop]

/-- C8: the company-side approval sets exactly the company_approved flag
of the matched row and leaves every other field unchanged, but the
professional-side approval reports success while leaving
professional_approved (and everything else) untouched, because it assigns
to the unmapped attribute `approved`; the claim about the professional
side contradicts the code (and the code contradicts its own test). -/
theorem approve_match_flags :
    CRUDCompany_approve_match exDB8 5 3 =
      .ok ({ exDB8 with jobs_matches :=
        [{ newMatchRow 1 5 7 3 with company_approved := true }] }, "Match approved!") ∧
    approve_match_by_ad_id exDB8 1 = .ok (exDB8, "Match approved!") ∧
    exDB8.jobs_matches.map (fun m => m.professional_approved) = [false] := by
  exact ⟨rfl, rfl, rfl⟩

/-! ### Lemmas about the deletion helpers -/

lemma delete_job_matches_ads (db : DB) (ad : AdRow) :
    (delete_job_matches db ad).ads = db.ads := by
  unfold delete_job_matches
  split <;> rfl

lemma delete_job_matches_infos (db : DB) (ad : AdRow) :
    (delete_job_matches db ad).infos = db.infos := by
  unfold delete_job_matches
  split <;> rfl

lemma delete_job_matches_skills (db : DB) (ad : AdRow) :
    (delete_job_matches db ad).skills = db.skills := by
  unfold delete_job_matches
  split <;> rfl

lemma clearMainAdFirst_id_flags (adId : ℕ) :
    ∀ l : List InfoRow,
      (clearMainAdFirst l adId).map (fun i => (i.id, i.is_deleted)) =
        l.map (fun i => (i.id, i.is_deleted)) := by
  intro l
  induction l with
  | nil => rfl
  | cons j rest ih =>
    simp only [clearMainAdFirst]
    split
    · simp
    · simp [ih]

lemma clearMainAdFirst_ids (adId : ℕ) :
    ∀ l : List InfoRow,
      (clearMainAdFirst l adId).map (fun i => i.id) = l.map (fun i => i.id) := by
  intro l
  induction l with
  | nil => rfl
  | cons j rest ih =>
    simp only [clearMainAdFirst]
    split
    · simp
    · simp [ih]

lemma clearMainAdFirst_no_ref (adId : ℕ) :
    ∀ l : List InfoRow,
      (l.filter (fun i => i.main_ad == some adId)).length ≤ 1 →
      ∀ i ∈ clearMainAdFirst l adId, i.main_ad ≠ some adId := by
  intro l
  induction l with
  | nil =>
    intro _ i hi
    exact absurd hi (List.not_mem_nil i)
  | cons j rest ih =>
    intro h i hi
    simp only [clearMainAdFirst] at hi
    by_cases hj : (j.main_ad == some adId) = true
    · rw [if_pos hj] at hi
      rcases List.mem_cons.mp hi with h1 | h1
      · subst h1; simp
      · have hfil : rest.filter (fun i => i.main_ad == some adId) = [] := by
          rw [List.filter_cons, if_pos hj] at h
          simp only [List.length_cons] at h
          exact List.length_eq_zero.mp (by omega)
        intro hc
        have hmemf : i ∈ rest.filter (fun i => i.main_ad == some adId) :=
          List.mem_filter.mpr ⟨h1, by simp [hc]⟩
        rw [hfil] at hmemf
        exact absurd hmemf (List.not_mem_nil i)
    · rw [if_neg hj] at hi
      rcases List.mem_cons.mp hi with h1 | h1
      · subst h1
        simpa using hj
      · refine ih ?_ i h1
        rw [List.filter_cons, if_neg hj] at h
        exact h

lemma flagFirstSkill_ids (n : String) :
    ∀ l : List SkillRow,
      (flagFirstSkill l n).map (fun s => s.id) = l.map (fun s => s.id) := by
  intro l
  induction l with
  | nil => rfl
  | cons s rest ih =>
    simp only [flagFirstSkill]
    split
    · simp
    · simp [ih]

lemma map_pres_map {α β : Type} (f : α → α) (g : α → β)
    (h : ∀ a, g (f a) = g a) :
    ∀ l : List α, (l.map f).map g = l.map g := by
  intro l
  induction l with
  | nil => rfl
  | cons a rest ih => simp only [List.map_cons, h a, ih]

/-- C9 counterexample: when the deleting user is not a professional (a
company user or an admin), `if_main_resume` is never invoked, so deleting
a resume that an info row designates as main resume leaves the reference
in place instead of clearing it to null. -/
theorem delete_ad_admin_keeps_main_ad :
    (delete_ad_crud exDB9 5 false).map (fun db => db.infos.map (fun i => i.main_ad)) =
      .ok [some 5] := by
  rfl

/-- C9 amended: deleting an ad soft-deletes every match row on the
matching side (resume side for a resume, job-ad side for a job ad),
clears a referencing main_ad — but only when the deleting user is a
professional — deletes no skill or info entity, and marks the ad itself
deleted. -/
theorem delete_ad_cascade (db : DB) (adId : ℕ) (ad : AdRow) (db' : DB)
    (hfind : db.ads.find? (fun a => a.id == adId && !a.is_deleted) = some ad)
    (h : delete_ad_crud db adId true = .ok db')
    (huniq : (db.infos.filter (fun i => i.main_ad == some adId)).length ≤ 1) :
    (∀ i ∈ db'.infos, i.main_ad ≠ some adId) ∧
    (ad.is_resume = true →
      ∀ m ∈ db'.jobs_matches, m.resume_id = ad.id → m.is_deleted = true) ∧
    (ad.is_resume = false →
      ∀ m ∈ db'.jobs_matches, m.ad_id = ad.id → m.is_deleted = true) ∧
    db'.skills = db.skills ∧
    db'.infos.map (fun i => (i.id, i.is_deleted)) =
      db.infos.map (fun i => (i.id, i.is_deleted)) ∧
    (∀ a ∈ db'.ads, a.id = adId → a.is_deleted = true) := by
  unfold delete_ad_crud at h
  rw [hfind] at h
  simp only [cond, Except.ok.injEq] at h
  subst h
  have hinfos :
      (delete_job_matches (if_main_resume db adId) ad).infos =
        clearMainAdFirst db.infos adId := by
    rw [delete_job_matches_infos]; rfl
  refine ⟨?_, ?_, ?_, ?_, ?_, ?_⟩
  · intro i hi
    rw [hinfos] at hi
    exact clearMainAdFirst_no_ref adId db.infos huniq i hi
  · intro hisres m hm hrid
    have hjm :
        (delete_job_matches (if_main_resume db adId) ad).jobs_matches =
          db.jobs_matches.map (fun m =>
            if m.resume_id = ad.id then { m with is_deleted := true } else m) := by
      unfold delete_job_matches
      rw [if_pos hisres]
      rfl
    rw [hjm] at hm
    obtain ⟨m0, _, rfl⟩ := List.mem_map.mp hm
    by_cases hc : m0.resume_id = ad.id
    · simp [hc]
    · rw [if_neg hc] at hrid ⊢
      exact absurd hrid hc
  · intro hisres m hm hrid
    have hjm :
        (delete_job_matches (if_main_resume db adId) ad).jobs_matches =
          db.jobs_matches.map (fun m =>
            if m.ad_id = ad.id then { m with is_deleted := true } else m) := by
      unfold delete_job_matches
      rw [if_neg (by simp [hisres])]
      rfl
    rw [hjm] at hm
    obtain ⟨m0, _, rfl⟩ := List.mem_map.mp hm
    by_cases hc : m0.ad_id = ad.id
    · simp [hc]
    · rw [if_neg hc] at hrid ⊢
      exact absurd hrid hc
  · rw [delete_job_matches_skills]; rfl
  · rw [hinfos]
    exact clearMainAdFirst_id_flags adId db.infos
  · intro a ha hid
    have hads : (delete_job_matches (if_main_resume db adId) ad).ads = db.ads := by
      rw [delete_job_matches_ads]; rfl
    rw [hads] at ha
    obtain ⟨a0, _, rfl⟩ := List.mem_map.mp ha
    by_cases hc : a0.id = adId
    · simp [hc]
    · rw [if_neg hc] at hid ⊢
      exact absurd hid hc

/-- Witness for C9 amended: the concrete professional-initiated deletion
of the resume with id 5 keeps every info row (only its main_ad cleared,
not its existence or its soft-delete flag). -/
theorem delete_ad_cascade_witness :
    exDB9out.infos.map (fun i => (i.id, i.is_deleted)) =
      exDB9.infos.map (fun i => (i.id, i.is_deleted)) :=
  (delete_ad_cascade exDB9 5 exMatchResume exDB9out rfl rfl (by decide)).2.2.2.2.1

/-- C10 counterexample: the crud operation `delete_resume_by_id` hard
deletes: after it runs, the Ad row of the resume is gone from storage and
so is the match row whose ad_id referenced it (removed by the
`all, delete-orphan` relationship cascade), contradicting the claim that
no deletion operation removes rows. -/
theorem delete_resume_removes_rows :
    (delete_resume_by_id exDB10 exProfessional 5).map
      (fun db => (db.ads.length, db.jobs_matches.length)) = .ok (0, 0) := by
  rfl

/-- C10 amended: every deletion operation reachable through an exposed
route — ad deletion, skill deletion, professional-profile deletion,
company deletion and company-info deletion — preserves the identifying
columns of every table (no row of any table, match rows included, is
removed from storage) and the ad-deletion operation marks the deleted ad
with is_deleted; the unexposed `delete_resume_by_id` (its route is
commented out) is the one operation that removes rows. -/
theorem exposed_deletions_preserve_rows (db : DB) (adId profId compId infoId : ℕ)
    (skillName : String) (isProf : Bool) :
    (∀ db', delete_ad_crud db adId isProf = .ok db' →
      tableIds db' = tableIds db ∧ ∀ a ∈ db'.ads, a.id = adId → a.is_deleted = true) ∧
    (∀ db', delete_skill_crud db skillName = .ok db' → tableIds db' = tableIds db) ∧
    (∀ db', delete_professional_by_id db profId = .ok db' → tableIds db' = tableIds db) ∧
    (∀ db', CRUDCompany_delete_by_id db compId = .ok db' → tableIds db' = tableIds db) ∧
    (∀ db', CRUDCompany_delete_info_by_id db infoId = .ok db' → tableIds db' = tableIds db) := by
  refine ⟨?_, ?_, ?_, ?_, ?_⟩
  · intro db' h
    unfold delete_ad_crud at h
    cases hfind : db.ads.find? (fun a => a.id == adId && !a.is_deleted) with
    | none => rw [hfind] at h; simp at h
    | some ad =>
      rw [hfind] at h
      simp only [Except.ok.injEq] at h
      subst h
      have hads : (delete_job_matches (cond isProf (if_main_resume db adId) db) ad).ads
          = db.ads := by
        rw [delete_job_matches_ads]; cases isProf <;> rfl
      constructor
      · unfold tableIds
        simp only [Prod.mk.injEq]
        refine ⟨?_, ?_, ?_, ?_, ?_, ?_, ?_⟩
        · rw [map_pres_map _ _ (fun a => by split <;> rfl)]
          rw [hads]
        · have hjm : (delete_job_matches (cond isProf (if_main_resume db adId) db) ad).jobs_matches.map
              (fun m => (m.ad_id, m.resume_id, m.professional_id, m.company_id)) =
              db.jobs_matches.map
              (fun m => (m.ad_id, m.resume_id, m.professional_id, m.company_id)) := by
            unfold delete_job_matches
            split
            · rw [map_pres_map _ _ (fun m => by split <;> rfl)]
              cases isProf <;> rfl
            · rw [map_pres_map _ _ (fun m => by split <;> rfl)]
              cases isProf <;> rfl
          exact hjm
        · rw [delete_job_matches_infos]
          cases isProf
          · rfl
          · exact clearMainAdFirst_ids adId db.infos
        · rw [delete_job_matches_skills]; cases isProf <;> rfl
        · unfold delete_job_matches; split <;> (cases isProf <;> rfl)
        · unfold delete_job_matches; split <;> (cases isProf <;> rfl)
        · unfold delete_job_matches; split <;> (cases isProf <;> rfl)
      · intro a ha hid
        rw [hads] at ha
        obtain ⟨a0, _, rfl⟩ := List.mem_map.mp ha
        by_cases hc : a0.id = adId
        · simp [hc]
        · rw [if_neg hc] at hid ⊢
          exact absurd hid hc
  · intro db' h
    unfold delete_skill_crud at h
    by_cases hany : db.skills.any (fun s => s.name == skillName && !s.is_deleted) = true
    · rw [if_pos hany] at h
      simp only [Except.ok.injEq] at h
      subst h
      unfold tableIds
      simp only [Prod.mk.injEq, true_and, and_true]
      exact flagFirstSkill_ids skillName db.skills
    · rw [if_neg hany] at h
      simp at h
  · intro db' h
    unfold delete_professional_by_id at h
    cases hfind : db.professionals.find? (fun p => p.id == profId) with
    | none => rw [hfind] at h; simp at h
    | some prof =>
      rw [hfind] at h
      simp only [Except.ok.injEq] at h
      subst h
      unfold tableIds
      simp only [Prod.mk.injEq, true_and, and_true]
      refine ⟨?_, ?_, ?_, ?_, ?_⟩ <;> exact map_pres_map _ _ (fun x => by split <;> rfl) _
  · intro db' h
    unfold CRUDCompany_delete_by_id at h
    cases hfind : db.companies.find? (fun c => c.id == compId && !c.is_deleted) with
    | none => rw [hfind] at h; simp at h
    | some comp =>
      rw [hfind] at h
      simp only [Except.ok.injEq] at h
      subst h
      unfold tableIds
      simp only [Prod.mk.injEq, true_and, and_true]
      refine ⟨?_, ?_, ?_, ?_, ?_⟩ <;> exact map_pres_map _ _ (fun x => by split <;> rfl) _
  · intro db' h
    unfold CRUDCompany_delete_info_by_id at h
    cases hfind : db.infos.find? (fun i => i.id == infoId) with
    | none => rw [hfind] at h; simp at h
    | some info =>
      rw [hfind] at h
      simp only [Except.ok.injEq] at h
      subst h
      unfold tableIds
      simp only [Prod.mk.injEq, true_and, and_true]
      exact map_pres_map _ _ (fun i => by split <;> rfl) db.infos

/-- Witness for C10 amended: the concrete ad deletion preserves the
identifying columns of every table. -/
theorem exposed_deletions_preserve_rows_witness :
    tableIds exDB9out = tableIds exDB9 :=
  ((exposed_deletions_preserve_rows exDB9 5 0 0 0 "x" true).1 exDB9out rfl).1

end JobMatch
